import Mathlib

/-
Shallow embedding of the adversarial-patch training loop in
`train_patch.py` (class `PatchTrainer`).

Scalars are modelled as rationals.  External collaborators that live
outside this file's source (the frozen detector plus the
`MaxProbExtractor`, `NPSLoss` and `TotalVariationLoss` modules from
`adv_patch_gen.utils.loss`, the PIL/torchvision image pipeline, and the
Adam optimizer from torch) enter the model as abstract function
parameters; the training-loop logic itself — loss combination, the
clamp, the dispatch on `loss_target` and `patch_src`, the epoch/batch
iteration structure, checkpointing and tensorboard emission — is
translated directly from the source.
-/

namespace TrainPatch

/-- Configuration fields of the run consumed by `PatchTrainer.train`.
`patch_size` is `(p_w, p_h)` as unpacked in `generate_patch`;
`epoch_length` models `len(self.train_loader)`. -/
structure Cfg where
  loss_target : String
  patch_src : String
  patch_name : String
  patch_size : Nat × Nat
  nps_mult : ℚ
  tv_mult : ℚ
  min_tv_loss : ℚ
  start_lr : ℚ
  n_epochs : Nat
  epoch_length : Nat

/-- A 3-d tensor (channels, height, width) with its flattened data. -/
structure Tensor3 where
  chans : Nat
  height : Nat
  width : Nat
  data : List ℚ

/-- A parameter tensor of the detection model: its value together with
its `requires_grad` flag. -/
structure MParam where
  value : ℚ
  requires_grad : Bool

/-- The freeze loop of `PatchTrainer.__init__`:
`for param in self.model.parameters(): param.requires_grad = False`. -/
def freezeModel (ps : List MParam) : List MParam :=
  ps.map fun p => { p with requires_grad := false }

/-- Mean of a 1-d tensor, `torch.mean`: sum divided by length (0 on empty). -/
def torchMean (l : List ℚ) : ℚ :=
  l.sum / (l.length : ℚ)

/-- Clamping of one scalar to [0, 1], `clamp_(0, 1)`. -/
def clampQ (x : ℚ) : ℚ := max 0 (min 1 x)

/-- Elementwise clamp of the patch, `adv_patch_cpu.data.clamp_(0, 1)`. -/
def clampPatch (p : List ℚ) : List ℚ := p.map clampQ

/-- The scalar losses computed in one batch of `PatchTrainer.train`. -/
structure BatchOut where
  det_loss : ℚ
  nps_loss : ℚ
  tv_loss : ℚ
  total : ℚ

/-- Lines 181-188 of `train_patch.py`:
`nps = self.nps_loss(adv_patch) if self.cfg.nps_mult != 0 else torch.tensor([0])`,
`tv = self.tv_loss(adv_patch) if self.cfg.tv_mult != 0 else torch.tensor([0])`,
`nps_loss = nps * self.cfg.nps_mult`,
`tv_loss = torch.max(tv * self.cfg.tv_mult, min_tv_loss)`,
`det_loss = torch.mean(max_prob)`,
`loss = det_loss + nps_loss + tv_loss`.
`npsFn` and `tvFn` stand for the external `NPSLoss` / `TotalVariationLoss`
modules applied to the patch. -/
def batchComp (cfg : Cfg) (npsFn tvFn : List ℚ → ℚ) (patch : List ℚ)
    (max_prob : List ℚ) : BatchOut :=
  let nps := if cfg.nps_mult ≠ 0 then npsFn patch else 0
  let tv := if cfg.tv_mult ≠ 0 then tvFn patch else 0
  let nps_loss := nps * cfg.nps_mult
  let tv_loss := max (tv * cfg.tv_mult) cfg.min_tv_loss
  let det_loss := torchMean max_prob
  { det_loss := det_loss, nps_loss := nps_loss, tv_loss := tv_loss,
    total := det_loss + nps_loss + tv_loss }

/-- The "fix loss targets" dispatch at the top of `PatchTrainer.train`
(lines 124-134): `"obj"`, `"cls"` and `"obj * cls"` select a combination
function; any other string raises `NotImplementedError`. -/
def fixLossTarget (s : String) : Except String (ℚ → ℚ → ℚ) :=
  if s = "obj" then Except.ok (fun obj _cls => obj)
  else if s = "cls" then Except.ok (fun _obj cls => cls)
  else if s = "obj * cls" then Except.ok (fun obj cls => obj * cls)
  else Except.error ("Loss target " ++ s ++ " not been implemented")

/-- Result of applying the dispatched loss-target rule to an
objectness score and a class score, `none` when the dispatch fails. -/
def lossTargetApply (s : String) (o c : ℚ) : Option ℚ :=
  match fixLossTarget s with
  | Except.ok f => some (f o c)
  | Except.error _ => none

/-- State of the reduce-on-plateau learning-rate scheduler.
`num_reductions` counts the learning-rate reductions performed. -/
structure SchedState where
  lr : ℚ
  best : Option ℚ
  num_bad : Nat
  num_reductions : Nat

/-- Modelled from the spec: `torch.optim.lr_scheduler.ReduceLROnPlateau`
(library code, not part of this repository's sources) in `'min'` mode —
"reduce-on-plateau: if the mean loss fails to improve for a configured
patience, halve or otherwise reduce the learning rate".  A step with a
loss below the best seen resets the bad-epoch counter; otherwise the
counter grows, and once it exceeds the patience the learning rate is
multiplied by the reduction factor 1/10 and the counter resets. -/
def schedStep (patience : Nat) (s : SchedState) (loss : ℚ) : SchedState :=
  match s.best with
  | none => { s with best := some loss, num_bad := 0 }
  | some b =>
    if loss < b then { s with best := some loss, num_bad := 0 }
    else if s.num_bad + 1 > patience then
      { lr := s.lr * (1 / 10), best := s.best, num_bad := 0,
        num_reductions := s.num_reductions + 1 }
    else { s with num_bad := s.num_bad + 1 }

/-- Feed a sequence of epoch losses to the scheduler in order. -/
def schedFeed (patience : Nat) (s : SchedState) (ls : List ℚ) : SchedState :=
  ls.foldl (schedStep patience) s

/-- Initial scheduler state:
`optim.lr_scheduler.ReduceLROnPlateau(optimizer, 'min', patience=50)`
over an optimizer whose learning rate is `cfg.start_lr`. -/
def initSched (lr0 : ℚ) : SchedState :=
  { lr := lr0, best := none, num_bad := 0, num_reductions := 0 }

/-- The external PIL / torchvision image pipeline used by
`PatchTrainer.read_image`: `Image.open(path).convert('RGB')` and
`transforms.Resize(size)` (with `transforms.ToTensor` folded into the
`Tensor3` representation). -/
structure ImageExt where
  openRGB : String → Tensor3
  resize : Nat × Nat → Tensor3 → Tensor3

/-- Patch generation, `PatchTrainer.generate_patch`: a gray patch is
`torch.full((3, p_h, p_w), 0.5)`, a random patch is
`torch.rand((3, p_h, p_w))` with `rng` the stream of drawn uniform
values.  Any other `patch_type` leaves the result unbound in the Python
source (never reached from `train`); modelled by an empty tensor. -/
def generate_patch (cfg : Cfg) (rng : Nat → ℚ) (patch_type : String) : Tensor3 :=
  let p_w := cfg.patch_size.1
  let p_h := cfg.patch_size.2
  if patch_type = "gray" then
    ⟨3, p_h, p_w, List.replicate (3 * p_h * p_w) (1 / 2)⟩
  else if patch_type = "random" then
    ⟨3, p_h, p_w, (List.range (3 * p_h * p_w)).map rng⟩
  else ⟨0, 0, 0, []⟩

/-- Image loading, `PatchTrainer.read_image`: open the file as RGB and
resize to `cfg.patch_size`. -/
def read_image (cfg : Cfg) (img : ImageExt) (path : String) : Tensor3 :=
  img.resize cfg.patch_size (img.openRGB path)

/-- The patch-initialization dispatch of `PatchTrainer.train`
(lines 136-142): `'gray'` and `'random'` call `generate_patch`, any
other `patch_src` is read as an image file. -/
def initPatch (cfg : Cfg) (rng : Nat → ℚ) (img : ImageExt) : Tensor3 :=
  if cfg.patch_src = "gray" then generate_patch cfg rng "gray"
  else if cfg.patch_src = "random" then generate_patch cfg rng "random"
  else read_image cfg img cfg.patch_src

/-- The external collaborators of one training step: `maxProb` is the
composition patch-transformer → patch-applier → frozen detector →
`MaxProbExtractor` for the given epoch/batch (the data batch is a
function of the batch index), `npsLoss` and `tvLoss` are the loss
modules, and `optStep` is the Adam update `optimizer.step()` producing
the new (unclamped) patch values from the current ones — arbitrary,
covering any gradient and any learning rate. -/
structure Ext where
  maxProb : Nat → Nat → List ℚ → List ℚ
  npsLoss : List ℚ → ℚ
  tvLoss : List ℚ → ℚ
  optStep : Nat → Nat → List ℚ → List ℚ

/-- One record written to the tensorboard writer at lines 197-212:
the decomposed losses, the epoch, the current learning rate and the
current patch snapshot, keyed by
`iteration = epoch_length * epoch + i_batch`. -/
structure Emission where
  iteration : Nat
  total_loss : ℚ
  det_loss : ℚ
  nps_loss : ℚ
  tv_loss : ℚ
  epoch : Nat
  learning_rate : ℚ
  patch : List ℚ

/-- One patch checkpoint written at the end of an epoch (lines 221-224):
the image file name and the image content, i.e. the value of
`adv_patch_cpu` at save time. -/
structure SavedPatch where
  fname : String
  patch : List ℚ

/-- State threaded through the training loop: the patch parameter, the
frozen detector parameters, the scheduler state, the running epoch loss
accumulator `ep_loss`, and the observable logs (per-batch losses,
tensorboard emissions, saved patch checkpoints). -/
structure TrainSt where
  patch : List ℚ
  modelParams : List MParam
  sched : SchedState
  epAcc : ℚ
  losses : List ℚ
  emits : List Emission
  saved : List SavedPatch

/-- One iteration of the batch loop (lines 157-216): compute the losses
from the current patch, accumulate `ep_loss`, apply the optimizer step
and clamp the patch to [0,1], and every 15 batches emit the losses,
learning rate and patch snapshot at step `epoch_length * epoch + i_batch`. -/
def runBatch (cfg : Cfg) (ext : Ext) (epoch b : Nat) (st : TrainSt) : TrainSt :=
  let mp := ext.maxProb epoch b st.patch
  let out := batchComp cfg ext.npsLoss ext.tvLoss st.patch mp
  let patch2 := clampPatch (ext.optStep epoch b st.patch)
  let st2 : TrainSt :=
    { st with patch := patch2, epAcc := st.epAcc + out.total,
              losses := st.losses ++ [out.total] }
  if b % 15 = 0 then
    { st2 with emits := st2.emits ++
        [{ iteration := cfg.epoch_length * epoch + b,
           total_loss := out.total, det_loss := out.det_loss,
           nps_loss := out.nps_loss, tv_loss := out.tv_loss,
           epoch := epoch, learning_rate := st.sched.lr,
           patch := patch2 }] }
  else st2

/-- The batch loop of one epoch: `for i_batch, ... in enumerate(self.train_loader)`. -/
def batchFold (cfg : Cfg) (ext : Ext) (epoch : Nat) (st : TrainSt) : TrainSt :=
  (List.range cfg.epoch_length).foldl (fun s b => runBatch cfg ext epoch b s) st

/-- Deterministic per-epoch checkpoint file name
`f"{self.cfg.patch_name}_epoch_{epoch}.jpg"` (line 153). -/
def outPatchName (name : String) (epoch : Nat) : String :=
  name ++ "_epoch_" ++ toString epoch ++ ".jpg"

/-- One epoch (lines 150-226): reset `ep_loss`, run the batch loop,
feed `ep_loss / len(self.train_loader)` to the scheduler, and
(`if epoch % 1 == 0`) save the current patch `adv_patch_cpu` as an
image under the per-epoch file name. -/
def runEpoch (cfg : Cfg) (ext : Ext) (epoch : Nat) (st : TrainSt) : TrainSt :=
  let st2 := batchFold cfg ext epoch { st with epAcc := 0 }
  let st3 := { st2 with
    sched := schedStep 50 st2.sched (st2.epAcc / (cfg.epoch_length : ℚ)) }
  if epoch % 1 = 0 then
    { st3 with saved := st3.saved ++
        [{ fname := outPatchName cfg.patch_name epoch, patch := st3.patch }] }
  else st3

/-- The epoch loop: `for epoch in range(self.cfg.n_epochs)`. -/
def runTrain (cfg : Cfg) (ext : Ext) (st : TrainSt) : TrainSt :=
  (List.range cfg.n_epochs).foldl (fun s e => runEpoch cfg ext e s) st

/-- State at entry of the epoch loop: the freshly created patch, the
frozen detector parameters, the fresh optimizer/scheduler state, empty logs. -/
def initSt (cfg : Cfg) (patch0 : List ℚ) (ps : List MParam) : TrainSt :=
  { patch := patch0, modelParams := freezeModel ps,
    sched := initSched cfg.start_lr, epAcc := 0,
    losses := [], emits := [], saved := [] }

/-- The full `PatchTrainer.train`: dispatch the loss target (raising
`NotImplementedError` on an unrecognized string before the patch is
created), create the patch once from `patch_src`, then run the epoch loop. -/
def train (cfg : Cfg) (rng : Nat → ℚ) (img : ImageExt) (ext : Ext)
    (ps : List MParam) : Except String TrainSt :=
  match fixLossTarget cfg.loss_target with
  | Except.error e => Except.error e
  | Except.ok _ => Except.ok (runTrain cfg ext (initSt cfg (initPatch cfg rng img).data ps))

/-- Per-batch total losses observed over a whole successful run. -/
def trainLosses (cfg : Cfg) (rng : Nat → ℚ) (img : ImageExt) (ext : Ext)
    (ps : List MParam) : List ℚ :=
  match train cfg rng img ext ps with
  | Except.ok st => st.losses
  | Except.error _ => []

/-- The step keys of the tensorboard emissions, in emission order. -/
def emitIters (st : TrainSt) : List Nat :=
  st.emits.map fun em => em.iteration

/-! Fixtures used by the witness theorems. -/

/-- A concrete configuration. -/
def cfgW : Cfg :=
  { loss_target := "obj", patch_src := "gray", patch_name := "base",
    patch_size := (2, 1), nps_mult := 1, tv_mult := 1, min_tv_loss := 1 / 10,
    start_lr := 1 / 100, n_epochs := 2, epoch_length := 1 }

/-- Concrete external collaborators. -/
def extW : Ext :=
  { maxProb := fun _ _ _ => [1 / 2], npsLoss := fun _ => 1,
    tvLoss := fun _ => 1, optStep := fun _ _ p => p.map (fun x => x + 2) }

/-- A concrete image pipeline. -/
def imgW : ImageExt :=
  { openRGB := fun _ => ⟨3, 1, 2, [0, 0, 0, 0, 0, 0]⟩, resize := fun _ t => t }

/-- A concrete detector parameter list. -/
def psW : List MParam := [{ value := 1, requires_grad := true }]

/-- A concrete random stream. -/
def rngW : Nat → ℚ := fun _ => 1 / 3

/-- A concrete training state whose patch starts outside [0, 1]. -/
def stW : TrainSt := initSt cfgW [2] psW

/-! Helper lemmas about single fields of `runBatch`, `batchFold`,
`runEpoch` and `runTrain`, shared by several claims. -/

theorem runBatch_patch (cfg : Cfg) (ext : Ext) (epoch b : Nat) (st : TrainSt) :
    (runBatch cfg ext epoch b st).patch = clampPatch (ext.optStep epoch b st.patch) := by
  unfold runBatch
  dsimp only
  split <;> rfl

theorem runBatch_modelParams (cfg : Cfg) (ext : Ext) (epoch b : Nat) (st : TrainSt) :
    (runBatch cfg ext epoch b st).modelParams = st.modelParams := by
  unfold runBatch
  dsimp only
  split <;> rfl

theorem runBatch_sched (cfg : Cfg) (ext : Ext) (epoch b : Nat) (st : TrainSt) :
    (runBatch cfg ext epoch b st).sched = st.sched := by
  unfold runBatch
  dsimp only
  split <;> rfl

theorem runBatch_saved (cfg : Cfg) (ext : Ext) (epoch b : Nat) (st : TrainSt) :
    (runBatch cfg ext epoch b st).saved = st.saved := by
  unfold runBatch
  dsimp only
  split <;> rfl

theorem runBatch_losses (cfg : Cfg) (ext : Ext) (epoch b : Nat) (st : TrainSt) :
    (runBatch cfg ext epoch b st).losses = st.losses ++
      [(batchComp cfg ext.npsLoss ext.tvLoss st.patch (ext.maxProb epoch b st.patch)).total] := by
  unfold runBatch
  dsimp only
  split <;> rfl

theorem runBatch_epAcc (cfg : Cfg) (ext : Ext) (epoch b : Nat) (st : TrainSt) :
    (runBatch cfg ext epoch b st).epAcc = st.epAcc +
      (batchComp cfg ext.npsLoss ext.tvLoss st.patch (ext.maxProb epoch b st.patch)).total := by
  unfold runBatch
  dsimp only
  split <;> rfl

/-- C1: in every batch step the total loss equals detection (the batch
mean of the extracted max probabilities) plus the NPS loss scaled by the
NPS weight plus the maximum of the weighted TV loss and the configured
floor, and the smoothness term never drops below the floor. -/
theorem C1_total_loss (cfg : Cfg) (npsFn tvFn : List ℚ → ℚ)
    (patch max_prob : List ℚ) :
    (batchComp cfg npsFn tvFn patch max_prob).total =
      torchMean max_prob + cfg.nps_mult * npsFn patch +
        max (cfg.tv_mult * tvFn patch) cfg.min_tv_loss ∧
    (batchComp cfg npsFn tvFn patch max_prob).det_loss = torchMean max_prob ∧
    cfg.min_tv_loss ≤ (batchComp cfg npsFn tvFn patch max_prob).tv_loss := by
  refine ⟨?_, rfl, le_max_right _ _⟩
  unfold batchComp
  dsimp only
  by_cases hn : cfg.nps_mult = 0 <;> by_cases ht : cfg.tv_mult = 0 <;>
    simp [hn, ht, mul_comm]

/-- C2: immediately after every optimizer update the patch is clamped,
so all its pixel values lie in [0, 1], for any optimizer update (hence
any gradient and any learning rate). -/
theorem C2_clamp_invariant (cfg : Cfg) (ext : Ext) (epoch b : Nat)
    (st : TrainSt) (x : ℚ) (hx : x ∈ (runBatch cfg ext epoch b st).patch) :
    0 ≤ x ∧ x ≤ 1 := by
  rw [runBatch_patch] at hx
  rcases List.mem_map.mp hx with ⟨y, _, rfl⟩
  unfold clampQ
  exact ⟨le_max_left 0 _, max_le (by norm_num) (min_le_left _ _)⟩

/-- Witness for C2 at a concrete step whose update pushes the patch
value to 4 before clamping. -/
theorem C2_clamp_invariant_witness :
    (0 : ℚ) ≤ 1 ∧ (1 : ℚ) ≤ 1 := by
  refine C2_clamp_invariant cfgW extW 0 0 stW 1 ?_
  show (1 : ℚ) ∈ (runBatch cfgW extW 0 0 stW).patch
  rw [runBatch_patch]
  show (1 : ℚ) ∈ clampPatch ([(2 : ℚ)].map (fun x => x + 2))
  norm_num [clampPatch, clampQ]

/-- C10: with TV weight 0 the TV loss module is never consulted (the
batch result does not depend on it) yet the smoothness term equals the
constant floor, biasing the total by it; with NPS weight 0 the NPS
module is never consulted and the printability term is exactly 0. -/
theorem C10_zero_weight_branches (cfg : Cfg) (npsFn tvFn : List ℚ → ℚ)
    (patch max_prob : List ℚ) :
    (cfg.tv_mult = 0 →
      (∀ tvFn2, batchComp cfg npsFn tvFn patch max_prob =
        batchComp cfg npsFn tvFn2 patch max_prob) ∧
      (0 ≤ cfg.min_tv_loss →
        (batchComp cfg npsFn tvFn patch max_prob).tv_loss = cfg.min_tv_loss ∧
        (batchComp cfg npsFn tvFn patch max_prob).total =
          torchMean max_prob + cfg.nps_mult * npsFn patch + cfg.min_tv_loss)) ∧
    (cfg.nps_mult = 0 →
      (∀ npsFn2, batchComp cfg npsFn tvFn patch max_prob =
        batchComp cfg npsFn2 tvFn patch max_prob) ∧
      (batchComp cfg npsFn tvFn patch max_prob).nps_loss = 0 ∧
      (batchComp cfg npsFn tvFn patch max_prob).total =
        torchMean max_prob +
          (batchComp cfg npsFn tvFn patch max_prob).tv_loss) := by
  constructor
  · intro ht
    constructor
    · intro tvFn2
      unfold batchComp
      simp [ht]
    · intro hmin
      have hmax : max ((0 : ℚ) * cfg.tv_mult) cfg.min_tv_loss = cfg.min_tv_loss := by
        rw [zero_mul]
        exact max_eq_right hmin
      constructor
      · unfold batchComp
        simp only [ht, ne_eq, not_true_eq_false, if_false, ite_false]
        simpa using hmax
      · unfold batchComp
        dsimp only
        simp only [ht]
        by_cases hn : cfg.nps_mult = 0 <;> simp [hn, hmax, hmin, mul_comm]
  · intro hn
    refine ⟨?_, ?_, ?_⟩
    · intro npsFn2
      unfold batchComp
      simp [hn]
    · unfold batchComp
      simp [hn]
    · unfold batchComp
      simp [hn]

/-- A configuration with both loss weights set to zero. -/
def cfgW0 : Cfg := { cfgW with tv_mult := 0, nps_mult := 0 }

/-- Witness for C10 at a concrete zero-weight configuration. -/
theorem C10_zero_weight_branches_witness :
    (batchComp cfgW0 (fun _ => 1) (fun _ => 1) [0] [1]).tv_loss = 1 / 10 ∧
    (batchComp cfgW0 (fun _ => 1) (fun _ => 1) [0] [1]).nps_loss = 0 := by
  constructor
  · exact (((C10_zero_weight_branches cfgW0 (fun _ => 1) (fun _ => 1) [0] [1]).1
      rfl).2 (by norm_num [cfgW0, cfgW])).1
  · exact ((C10_zero_weight_branches cfgW0 (fun _ => 1) (fun _ => 1) [0] [1]).2
      rfl).2.1

/-- C3: exactly the strings `"obj"`, `"cls"` and `"obj * cls"` select a
loss-combination rule (objectness, class score, their product), selected
once by the dispatch at the top of `train`; every other loss-target
string makes `train` fail with the `NotImplementedError` message before
the patch is created or any optimization step runs. -/
theorem C3_loss_target_dispatch :
    (∀ o c : ℚ, lossTargetApply "obj" o c = some o) ∧
    (∀ o c : ℚ, lossTargetApply "cls" o c = some c) ∧
    (∀ o c : ℚ, lossTargetApply "obj * cls" o c = some (o * c)) ∧
    (∀ s : String, s ≠ "obj" → s ≠ "cls" → s ≠ "obj * cls" →
      fixLossTarget s =
        Except.error ("Loss target " ++ s ++ " not been implemented") ∧
      ∀ (cfg : Cfg) (rng : Nat → ℚ) (img : ImageExt) (ext : Ext)
        (ps : List MParam), cfg.loss_target = s →
        train cfg rng img ext ps =
          Except.error ("Loss target " ++ s ++ " not been implemented")) := by
  refine ⟨fun o c => rfl, fun o c => rfl, fun o c => rfl, ?_⟩
  intro s h1 h2 h3
  have hfix : fixLossTarget s =
      Except.error ("Loss target " ++ s ++ " not been implemented") := by
    unfold fixLossTarget
    rw [if_neg h1, if_neg h2, if_neg h3]
  refine ⟨hfix, ?_⟩
  intro cfg rng img ext ps hcfg
  unfold train
  rw [hcfg, hfix]

/-- Witness for C3: the product rule on concrete scores, and a run with
an unrecognized loss target failing fast. -/
theorem C3_loss_target_dispatch_witness :
    lossTargetApply "obj * cls" (1 / 2) (1 / 3) = some (1 / 2 * (1 / 3)) ∧
    train { cfgW with loss_target := "bad" } rngW imgW extW psW =
      Except.error ("Loss target " ++ "bad" ++ " not been implemented") := by
  constructor
  · exact C3_loss_target_dispatch.2.2.1 (1 / 2) (1 / 3)
  · exact (C3_loss_target_dispatch.2.2.2 "bad" (by decide) (by decide)
      (by decide)).2 { cfgW with loss_target := "bad" } rngW imgW extW psW rfl

theorem batchFold_modelParams (cfg : Cfg) (ext : Ext) (epoch : Nat) (st : TrainSt) :
    (batchFold cfg ext epoch st).modelParams = st.modelParams := by
  unfold batchFold
  generalize List.range cfg.epoch_length = bs
  induction bs generalizing st with
  | nil => rfl
  | cons b bs ih => rw [List.foldl_cons, ih, runBatch_modelParams]

theorem runEpoch_modelParams (cfg : Cfg) (ext : Ext) (epoch : Nat) (st : TrainSt) :
    (runEpoch cfg ext epoch st).modelParams = st.modelParams := by
  unfold runEpoch
  dsimp only
  split <;> simp [batchFold_modelParams]

theorem runTrain_modelParams (cfg : Cfg) (ext : Ext) (st : TrainSt) :
    (runTrain cfg ext st).modelParams = st.modelParams := by
  unfold runTrain
  generalize List.range cfg.n_epochs = es
  induction es generalizing st with
  | nil => rfl
  | cons e es ih => rw [List.foldl_cons, ih, runEpoch_modelParams]

/-- C4: every detector parameter has `requires_grad` disabled by the
freeze loop of `__init__`, and the whole training loop never mutates the
detector's parameters — only the patch is updated. -/
theorem C4_detector_frozen (ps : List MParam) (cfg : Cfg) (ext : Ext)
    (st : TrainSt) :
    (∀ p ∈ freezeModel ps, p.requires_grad = false) ∧
    (runTrain cfg ext st).modelParams = st.modelParams := by
  constructor
  · intro p hp
    rcases List.mem_map.mp hp with ⟨q, _, rfl⟩
    rfl
  · exact runTrain_modelParams cfg ext st

/-- Witness for C4 on concrete detector parameters and a concrete run. -/
theorem C4_detector_frozen_witness :
    ({ value := 1, requires_grad := false } : MParam).requires_grad = false ∧
    (runTrain cfgW extW stW).modelParams = stW.modelParams := by
  constructor
  · exact (C4_detector_frozen psW cfgW extW stW).1
      { value := 1, requires_grad := false } (List.mem_singleton.mpr rfl)
  · exact (C4_detector_frozen psW cfgW extW stW).2

/-- C5: the patch is created once per run according to `patch_src`:
`"gray"` gives a 3-channel tensor of the configured size holding 0.5
everywhere, `"random"` gives a 3-channel tensor of the configured size
drawn from the uniform random stream, and any other string is read as
an image path, converted to RGB and resized to the configured size. -/
theorem C5_patch_init (cfg : Cfg) (rng : Nat → ℚ) (img : ImageExt) :
    (cfg.patch_src = "gray" →
      initPatch cfg rng img =
        ⟨3, cfg.patch_size.2, cfg.patch_size.1,
          List.replicate (3 * cfg.patch_size.2 * cfg.patch_size.1) (1 / 2)⟩ ∧
      ∀ x ∈ (initPatch cfg rng img).data, x = 1 / 2) ∧
    (cfg.patch_src = "random" →
      initPatch cfg rng img =
        ⟨3, cfg.patch_size.2, cfg.patch_size.1,
          (List.range (3 * cfg.patch_size.2 * cfg.patch_size.1)).map rng⟩) ∧
    (cfg.patch_src ≠ "gray" → cfg.patch_src ≠ "random" →
      initPatch cfg rng img =
        img.resize cfg.patch_size (img.openRGB cfg.patch_src)) ∧
    (∀ (ext : Ext) (ps : List MParam) (f : ℚ → ℚ → ℚ),
      fixLossTarget cfg.loss_target = Except.ok f →
      train cfg rng img ext ps =
        Except.ok (runTrain cfg ext
          (initSt cfg (initPatch cfg rng img).data ps))) := by
  refine ⟨?_, ?_, ?_, ?_⟩
  · intro h
    have hi : initPatch cfg rng img =
        ⟨3, cfg.patch_size.2, cfg.patch_size.1,
          List.replicate (3 * cfg.patch_size.2 * cfg.patch_size.1) (1 / 2)⟩ := by
      unfold initPatch generate_patch
      rw [if_pos h]
      rw [if_pos rfl]
    refine ⟨hi, ?_⟩
    intro x hx
    rw [hi] at hx
    exact List.eq_of_mem_replicate hx
  · intro h
    unfold initPatch generate_patch
    rw [if_neg (by rw [h]; decide), if_pos h]
    rw [if_neg (by decide), if_pos rfl]
  · intro h1 h2
    unfold initPatch
    rw [if_neg h1, if_neg h2]
    rfl
  · intro ext ps f hf
    unfold train
    rw [hf]

/-- Witness for C5: a gray-source configuration produces the all-0.5
patch of the configured size, and `train` runs the loop from it. -/
theorem C5_patch_init_witness :
    initPatch cfgW rngW imgW = ⟨3, 1, 2, List.replicate 6 (1 / 2)⟩ ∧
    train cfgW rngW imgW extW psW =
      Except.ok (runTrain cfgW extW
        (initSt cfgW (initPatch cfgW rngW imgW).data psW)) := by
  constructor
  · exact ((C5_patch_init cfgW rngW imgW).1 rfl).1
  · exact (C5_patch_init cfgW rngW imgW).2.2.2 extW psW
      (fun obj _cls => obj) rfl

theorem batchFold_saved (cfg : Cfg) (ext : Ext) (epoch : Nat) (st : TrainSt) :
    (batchFold cfg ext epoch st).saved = st.saved := by
  unfold batchFold
  generalize List.range cfg.epoch_length = bs
  induction bs generalizing st with
  | nil => rfl
  | cons b bs ih => rw [List.foldl_cons, ih, runBatch_saved]

theorem runEpoch_patch (cfg : Cfg) (ext : Ext) (epoch : Nat) (st : TrainSt) :
    (runEpoch cfg ext epoch st).patch =
      (batchFold cfg ext epoch { st with epAcc := 0 }).patch := by
  unfold runEpoch
  dsimp only
  split <;> rfl

theorem runEpoch_saved (cfg : Cfg) (ext : Ext) (epoch : Nat) (st : TrainSt) :
    (runEpoch cfg ext epoch st).saved =
      st.saved ++ [{ fname := outPatchName cfg.patch_name epoch,
                     patch := (runEpoch cfg ext epoch st).patch }] := by
  rw [runEpoch_patch]
  unfold runEpoch
  dsimp only
  rw [if_pos (Nat.mod_one epoch)]
  simp [batchFold_saved]

/-- Prefix of the epoch loop: the training state after the first `n`
epochs have run. -/
def epochsFold (cfg : Cfg) (ext : Ext) (st : TrainSt) (n : Nat) : TrainSt :=
  (List.range n).foldl (fun s e => runEpoch cfg ext e s) st

theorem epochsFold_succ (cfg : Cfg) (ext : Ext) (st : TrainSt) (n : Nat) :
    epochsFold cfg ext st (n + 1) =
      runEpoch cfg ext n (epochsFold cfg ext st n) := by
  unfold epochsFold
  rw [List.range_succ, List.foldl_append, List.foldl_cons, List.foldl_nil]

theorem epochsFold_saved (cfg : Cfg) (ext : Ext) (st0 : TrainSt) :
    ∀ n : Nat, (epochsFold cfg ext st0 n).saved =
      st0.saved ++ (List.range n).map (fun e =>
        { fname := outPatchName cfg.patch_name e,
          patch := (epochsFold cfg ext st0 (e + 1)).patch }) := by
  intro n
  induction n with
  | zero => simp [epochsFold]
  | succ n ih =>
    rw [epochsFold_succ, runEpoch_saved, ih, List.range_succ, List.map_append,
      List.append_assoc, ← epochsFold_succ]
    simp

/-- C7: a run over `n_epochs` epochs writes exactly one patch image per
epoch, in epoch order; each written file holds the loop's current patch
(the state of `adv_patch_cpu`, clamped at the end of the last batch
step, after that epoch), and the file name is the deterministic function
`outPatchName` of the configured patch name and the epoch index only. -/
theorem C7_epoch_checkpoints (cfg : Cfg) (ext : Ext) (patch0 : List ℚ)
    (ps : List MParam) :
    (runTrain cfg ext (initSt cfg patch0 ps)).saved =
      (List.range cfg.n_epochs).map (fun e =>
        { fname := outPatchName cfg.patch_name e,
          patch := (epochsFold cfg ext (initSt cfg patch0 ps) (e + 1)).patch }) ∧
    (runTrain cfg ext (initSt cfg patch0 ps)).saved.map (fun sp => sp.fname) =
      (List.range cfg.n_epochs).map (outPatchName cfg.patch_name) ∧
    (runTrain cfg ext (initSt cfg patch0 ps)).saved.length = cfg.n_epochs := by
  have h1 : (runTrain cfg ext (initSt cfg patch0 ps)).saved =
      (List.range cfg.n_epochs).map (fun e =>
        { fname := outPatchName cfg.patch_name e,
          patch := (epochsFold cfg ext (initSt cfg patch0 ps) (e + 1)).patch }) := by
    show (epochsFold cfg ext (initSt cfg patch0 ps) cfg.n_epochs).saved = _
    rw [epochsFold_saved]
    rfl
  refine ⟨h1, ?_, ?_⟩
  · rw [h1, List.map_map]
    rfl
  · rw [h1, List.length_map, List.length_range]

/-- C9: the compute path is a deterministic function of the seed — two
runs whose random stream and external collaborators are derived from
equal seeds produce identical per-batch loss sequences. -/
theorem C9_seed_determinism (cfg : Cfg) (mkRng : Nat → Nat → ℚ)
    (img : ImageExt) (mkExt : Nat → Ext) (ps : List MParam) (s1 s2 : Nat)
    (h : s1 = s2) :
    trainLosses cfg (mkRng s1) img (mkExt s1) ps =
      trainLosses cfg (mkRng s2) img (mkExt s2) ps := by
  rw [h]

/-- Witness for C9 at the concrete seed 7 on a concrete 1-batch,
2-epoch configuration. -/
theorem C9_seed_determinism_witness :
    trainLosses cfgW ((fun s _ => (s : ℚ)) 7) imgW ((fun _ => extW) 7) psW =
      trainLosses cfgW ((fun s _ => (s : ℚ)) 7) imgW ((fun _ => extW) 7) psW :=
  C9_seed_determinism cfgW (fun s _ => (s : ℚ)) imgW (fun _ => extW) psW 7 7 rfl

theorem schedFeed_nonimproving (patience : Nat) :
    ∀ (ls : List ℚ) (s : SchedState) (m : ℚ),
      s.best = some m → s.num_bad ≤ patience → (∀ x ∈ ls, m ≤ x) →
      (schedFeed patience s ls).num_reductions
          = s.num_reductions + (s.num_bad + ls.length) / (patience + 1) ∧
      (schedFeed patience s ls).lr
          = s.lr * (1 / 10 : ℚ) ^ ((s.num_bad + ls.length) / (patience + 1)) ∧
      (schedFeed patience s ls).best = some m ∧
      (schedFeed patience s ls).num_bad
          = (s.num_bad + ls.length) % (patience + 1) := by
  intro ls
  induction ls with
  | nil =>
    intro s m hb hle _
    have hlt : s.num_bad < patience + 1 := Nat.lt_succ_of_le hle
    simp [schedFeed, hb, Nat.div_eq_of_lt hlt, Nat.mod_eq_of_lt hlt]
  | cons x ls ih =>
    intro s m hb hle hall
    obtain ⟨slr, sbest, sbad, sred⟩ := s
    simp only at hb hle
    subst hb
    have hx : m ≤ x := hall x (List.mem_cons_self x ls)
    have htail : ∀ y ∈ ls, m ≤ y := fun y hy => hall y (List.mem_cons_of_mem x hy)
    have hstep : schedFeed patience ⟨slr, some m, sbad, sred⟩ (x :: ls) =
        schedFeed patience (schedStep patience ⟨slr, some m, sbad, sred⟩ x) ls := rfl
    rw [hstep]
    by_cases hpat : sbad + 1 > patience
    · have hEq : sbad = patience := le_antisymm hle (Nat.lt_succ_iff.mp hpat)
      have hs2 : schedStep patience ⟨slr, some m, sbad, sred⟩ x =
          ⟨slr * (1 / 10), some m, 0, sred + 1⟩ := by
        unfold schedStep
        dsimp only
        rw [if_neg (not_lt.mpr hx), if_pos hpat]
      rw [hs2]
      obtain ⟨hr, hlr, hbest, hbad⟩ :=
        ih ⟨slr * (1 / 10), some m, 0, sred + 1⟩ m rfl (Nat.zero_le _) htail
      have hpos : 0 < patience + 1 := by omega
      have harith : sbad + (x :: ls).length = ls.length + (patience + 1) := by
        simp only [List.length_cons]
        omega
      refine ⟨?_, ?_, hbest, ?_⟩
      · rw [hr]
        dsimp only
        simp only [Nat.zero_add]
        rw [harith, Nat.add_div_right _ hpos]
        omega
      · rw [hlr]
        dsimp only
        simp only [Nat.zero_add]
        rw [harith, Nat.add_div_right _ hpos, pow_succ]
        ring
      · rw [hbad]
        dsimp only
        simp only [Nat.zero_add]
        rw [harith, Nat.add_mod_right]
    · have hle2 : sbad + 1 ≤ patience := Nat.not_lt.mp (by exact hpat)
      have hs2 : schedStep patience ⟨slr, some m, sbad, sred⟩ x =
          ⟨slr, some m, sbad + 1, sred⟩ := by
        unfold schedStep
        dsimp only
        rw [if_neg (not_lt.mpr hx), if_neg hpat]
      rw [hs2]
      obtain ⟨hr, hlr, hbest, hbad⟩ :=
        ih ⟨slr, some m, sbad + 1, sred⟩ m rfl hle2 htail
      have harith : sbad + 1 + ls.length = sbad + (x :: ls).length := by
        simp only [List.length_cons]
        omega
      refine ⟨?_, ?_, hbest, ?_⟩
      · rw [hr]
        dsimp only
        rw [harith]
      · rw [hlr]
        dsimp only
        rw [harith]
      · rw [hbad]
        dsimp only
        rw [harith]

theorem batchFold_log (cfg : Cfg) (ext : Ext) (epoch : Nat) :
    ∀ (bs : List Nat) (st : TrainSt), ∃ ts : List ℚ,
      ts.length = bs.length ∧
      (bs.foldl (fun s b => runBatch cfg ext epoch b s) st).losses
          = st.losses ++ ts ∧
      (bs.foldl (fun s b => runBatch cfg ext epoch b s) st).epAcc
          = st.epAcc + ts.sum ∧
      (bs.foldl (fun s b => runBatch cfg ext epoch b s) st).sched = st.sched := by
  intro bs
  induction bs with
  | nil => intro st; exact ⟨[], rfl, by simp, by simp, rfl⟩
  | cons b bs ih =>
    intro st
    obtain ⟨ts, hlen, hlo, hep, hsc⟩ := ih (runBatch cfg ext epoch b st)
    refine ⟨(batchComp cfg ext.npsLoss ext.tvLoss st.patch
              (ext.maxProb epoch b st.patch)).total :: ts, by simp [hlen],
            ?_, ?_, ?_⟩
    · rw [List.foldl_cons, hlo, runBatch_losses]
      simp
    · rw [List.foldl_cons, hep, runBatch_epAcc, List.sum_cons]
      ring
    · rw [List.foldl_cons, hsc, runBatch_sched]

/-- C6: every epoch ends by feeding the epoch-mean total loss (the sum
of the per-batch totals divided by the number of batches) to the
reduce-on-plateau scheduler with patience 50; on a non-improving loss
sequence starting from a fresh bad-epoch counter the scheduler reduces
the learning rate exactly once per breached patience window (once per
51 consecutive non-improving epochs). -/
theorem C6_epoch_scheduler (cfg : Cfg) (ext : Ext) (epoch : Nat)
    (st : TrainSt) :
    (∃ ts : List ℚ, ts.length = cfg.epoch_length ∧
      (runEpoch cfg ext epoch st).losses = st.losses ++ ts ∧
      (runEpoch cfg ext epoch st).sched =
        schedStep 50 st.sched (ts.sum / (cfg.epoch_length : ℚ))) ∧
    (∀ (s : SchedState) (m : ℚ) (ls : List ℚ),
      s.best = some m → s.num_bad = 0 → (∀ x ∈ ls, m ≤ x) →
      (schedFeed 50 s ls).num_reductions
          = s.num_reductions + ls.length / 51 ∧
      (schedFeed 50 s ls).lr = s.lr * (1 / 10 : ℚ) ^ (ls.length / 51)) := by
  constructor
  · obtain ⟨ts, hlen, hlo, hep, hsc⟩ :=
      batchFold_log cfg ext epoch (List.range cfg.epoch_length)
        { st with epAcc := 0 }
    have hlen2 : ts.length = cfg.epoch_length := by
      rw [hlen, List.length_range]
    refine ⟨ts, hlen2, ?_, ?_⟩
    · unfold runEpoch
      dsimp only
      rw [if_pos (Nat.mod_one epoch)]
      show (batchFold cfg ext epoch { st with epAcc := 0 }).losses
          = st.losses ++ ts
      exact hlo
    · unfold runEpoch
      dsimp only
      rw [if_pos (Nat.mod_one epoch)]
      show schedStep 50 (batchFold cfg ext epoch { st with epAcc := 0 }).sched
            ((batchFold cfg ext epoch { st with epAcc := 0 }).epAcc /
              (cfg.epoch_length : ℚ))
          = schedStep 50 st.sched (ts.sum / (cfg.epoch_length : ℚ))
      unfold batchFold
      rw [hsc, hep]
      norm_num
  · intro s m ls hb hz hall
    obtain ⟨h1, h2, _, _⟩ := schedFeed_nonimproving 50 ls s m hb (by omega) hall
    rw [hz] at h1 h2
    simp only [Nat.zero_add] at h1 h2
    exact ⟨h1, h2⟩

/-- A concrete scheduler state with a recorded best loss. -/
def schedW : SchedState :=
  { lr := 1, best := some 1, num_bad := 0, num_reductions := 0 }

/-- Witness for C6: 51 consecutive non-improving epoch losses reduce
the learning rate exactly once. -/
theorem C6_epoch_scheduler_witness :
    (schedFeed 50 schedW (List.replicate 51 (2 : ℚ))).num_reductions =
      schedW.num_reductions + (List.replicate 51 (2 : ℚ)).length / 51 ∧
    (schedFeed 50 schedW (List.replicate 51 (2 : ℚ))).lr =
      schedW.lr * (1 / 10 : ℚ) ^ ((List.replicate 51 (2 : ℚ)).length / 51) := by
  have hall : ∀ x ∈ List.replicate 51 (2 : ℚ), (1 : ℚ) ≤ x := by
    intro x hx
    rw [List.eq_of_mem_replicate hx]
    norm_num
  exact (C6_epoch_scheduler cfgW extW 0 stW).2 schedW 1
    (List.replicate 51 (2 : ℚ)) rfl rfl hall

/-- The step keys emitted during epoch `e`: one per batch index that is
a multiple of 15, at `epoch_length * e + b`. -/
def epochIters (cfg : Cfg) (e : Nat) : List Nat :=
  ((List.range cfg.epoch_length).filter (fun b => b % 15 = 0)).map
    (fun b => cfg.epoch_length * e + b)

/-- The step keys emitted over a list of epochs, in order. -/
def epochItersList (cfg : Cfg) : List Nat → List Nat
  | [] => []
  | e :: es => epochIters cfg e ++ epochItersList cfg es

theorem runBatch_iters (cfg : Cfg) (ext : Ext) (epoch b : Nat) (st : TrainSt) :
    emitIters (runBatch cfg ext epoch b st) =
      emitIters st ++
        (if b % 15 = 0 then [cfg.epoch_length * epoch + b] else []) := by
  unfold runBatch emitIters
  dsimp only
  by_cases hb : b % 15 = 0 <;> simp [hb]

theorem batchFold_iters (cfg : Cfg) (ext : Ext) (epoch : Nat) :
    ∀ (bs : List Nat) (st : TrainSt),
      emitIters (bs.foldl (fun s b => runBatch cfg ext epoch b s) st) =
        emitIters st ++ (bs.filter (fun b => b % 15 = 0)).map
          (fun b => cfg.epoch_length * epoch + b) := by
  intro bs
  induction bs with
  | nil => intro st; simp
  | cons b bs ih =>
    intro st
    rw [List.foldl_cons, ih, runBatch_iters]
    by_cases hb : b % 15 = 0 <;>
      simp [hb, List.filter_cons, List.append_assoc]

theorem runEpoch_iters (cfg : Cfg) (ext : Ext) (epoch : Nat) (st : TrainSt) :
    emitIters (runEpoch cfg ext epoch st) =
      emitIters st ++ epochIters cfg epoch := by
  unfold runEpoch
  dsimp only
  rw [if_pos (Nat.mod_one epoch)]
  show emitIters (batchFold cfg ext epoch { st with epAcc := 0 }) =
      emitIters st ++ epochIters cfg epoch
  unfold batchFold epochIters
  rw [batchFold_iters]
  rfl

theorem runTrainFold_iters (cfg : Cfg) (ext : Ext) :
    ∀ (es : List Nat) (st : TrainSt),
      emitIters (es.foldl (fun s e => runEpoch cfg ext e s) st) =
        emitIters st ++ epochItersList cfg es := by
  intro es
  induction es with
  | nil => intro st; simp [epochItersList]
  | cons e es ih =>
    intro st
    rw [List.foldl_cons, ih, runEpoch_iters, epochItersList,
      List.append_assoc]

theorem mem_epochIters (cfg : Cfg) (e : Nat) (j : Nat)
    (hj : j ∈ epochIters cfg e) :
    cfg.epoch_length * e ≤ j ∧ j < cfg.epoch_length * (e + 1) := by
  unfold epochIters at hj
  rcases List.mem_map.mp hj with ⟨b, hb, rfl⟩
  have hblt : b < cfg.epoch_length :=
    List.mem_range.mp (List.mem_filter.mp hb).1
  constructor
  · exact Nat.le_add_right _ _
  · rw [Nat.mul_succ]
    exact Nat.add_lt_add_left hblt _

theorem pairwise_epochIters (cfg : Cfg) (e : Nat) :
    List.Pairwise (· < ·) (epochIters cfg e) := by
  unfold epochIters
  refine List.Pairwise.map _ (fun a b hab => ?_)
    (List.Pairwise.sublist (List.filter_sublist _) (List.pairwise_lt_range _))
  exact Nat.add_lt_add_left hab _

theorem mem_epochItersList (cfg : Cfg) :
    ∀ (es : List Nat) (n : Nat), (∀ e ∈ es, e < n) →
      ∀ j ∈ epochItersList cfg es, j < cfg.epoch_length * n := by
  intro es
  induction es with
  | nil => intro n _ j hj; exact absurd hj (List.not_mem_nil j)
  | cons e es ih =>
    intro n hbound j hj
    rcases List.mem_append.mp hj with hj | hj
    · have he : e < n := hbound e (List.mem_cons_self e es)
      exact lt_of_lt_of_le (mem_epochIters cfg e j hj).2
        (Nat.mul_le_mul_left _ he)
    · exact ih n (fun e2 h2 => hbound e2 (List.mem_cons_of_mem e h2)) j hj

theorem pairwise_epochItersList (cfg : Cfg) :
    ∀ n : Nat, List.Pairwise (· < ·) (epochItersList cfg (List.range n)) := by
  intro n
  induction n with
  | zero => simp [epochItersList]
  | succ n ih =>
    have happ : ∀ (as bs : List Nat),
        epochItersList cfg (as ++ bs) =
          epochItersList cfg as ++ epochItersList cfg bs := by
      intro as
      induction as with
      | nil => intro bs; simp [epochItersList]
      | cons a as iha =>
        intro bs
        simp [epochItersList, iha, List.append_assoc]
    rw [List.range_succ, happ]
    rw [List.pairwise_append]
    refine ⟨ih, ?_, ?_⟩
    · simp [epochItersList, pairwise_epochIters]
    · intro a ha b hb
      have hb2 : b ∈ epochIters cfg n := by
        simpa [epochItersList] using hb
      have ha2 : a < cfg.epoch_length * n :=
        mem_epochItersList cfg (List.range n) n
          (fun e he => List.mem_range.mp he) a ha
      exact lt_of_lt_of_le ha2 (mem_epochIters cfg n b hb2).1

/-- C8: an emission to the metrics sink happens exactly on batches whose
in-epoch index is a multiple of 15, carrying the decomposed losses
(total, detection, printability, smoothness), the epoch, the current
learning rate and the current patch snapshot keyed by
`epoch_length * epoch + i_batch`; and over a whole run the step keys of
successive emissions are strictly increasing. -/
theorem C8_metrics_emission (cfg : Cfg) (ext : Ext) (epoch b : Nat)
    (st : TrainSt) (patch0 : List ℚ) (ps : List MParam) :
    ((runBatch cfg ext epoch b st).emits =
      if b % 15 = 0 then
        st.emits ++
          [{ iteration := cfg.epoch_length * epoch + b,
             total_loss := (batchComp cfg ext.npsLoss ext.tvLoss st.patch
               (ext.maxProb epoch b st.patch)).total,
             det_loss := (batchComp cfg ext.npsLoss ext.tvLoss st.patch
               (ext.maxProb epoch b st.patch)).det_loss,
             nps_loss := (batchComp cfg ext.npsLoss ext.tvLoss st.patch
               (ext.maxProb epoch b st.patch)).nps_loss,
             tv_loss := (batchComp cfg ext.npsLoss ext.tvLoss st.patch
               (ext.maxProb epoch b st.patch)).tv_loss,
             epoch := epoch,
             learning_rate := st.sched.lr,
             patch := clampPatch (ext.optStep epoch b st.patch) }]
      else st.emits) ∧
    List.Pairwise (· < ·)
      (emitIters (runTrain cfg ext (initSt cfg patch0 ps))) := by
  constructor
  · unfold runBatch
    dsimp only
    by_cases hb : b % 15 = 0 <;> simp [hb]
  · unfold runTrain
    rw [runTrainFold_iters]
    have hinit : emitIters (initSt cfg patch0 ps) = [] := rfl
    rw [hinit, List.nil_append]
    exact pairwise_epochItersList cfg cfg.n_epochs

end TrainPatch
